import Mathlib

/-!
Verification of the model transformation engine of the
Minecraft-ResourcePack-Migrator repository, a shallow embedding of
`converter.py`.  JSON documents are modelled by the inductive type `J`;
Python dicts become association lists, Python float literals become exact
decimal fractions (`PyNum`), and each conversion function of the source is
translated into a Lean function of the same name.  The `fileName` argument
everywhere stands for `os.path.basename(file_path).lower()` as computed by
the source; predicates are modelled as records with one optional field per
recognized predicate key (the source only ever tests these keys), and every
override is assumed to carry its `predicate` and `model` entries (the
source skips malformed overrides; such overrides never arise in the claims
considered here).  Model strings are assumed non-empty where the source
tests Python truthiness of a found model.
-/

namespace Migrator

/-- Exact decimal fractions standing in for the Python floats carried
through the conversion (pull values, damage thresholds, the 0.05 scale).
The numerator/denominator pair is kept unreduced so that all operations
are kernel-computable; the source only copies these values verbatim and
compares them for sorting. -/
structure PyNum where
  num : Int
  den : Nat
deriving DecidableEq, Repr

instance : OfScientific PyNum where
  ofScientific m s e := if s then ⟨Int.ofNat m, 10 ^ e⟩ else ⟨Int.ofNat (m * 10 ^ e), 1⟩

instance (n : Nat) : OfNat PyNum n where
  ofNat := ⟨Int.ofNat n, 1⟩

/-- Comparison used for Python `sorted(...)` keys: cross-multiplied
numerator comparison. -/
def PyNum.le (a b : PyNum) : Bool := a.num * Int.ofNat b.den ≤ b.num * Int.ofNat a.den

/-- JSON-like values: the documents consumed and produced by the converter. -/
inductive J where
  | s : String → J
  | i : Int → J
  | q : PyNum → J
  | arr : List J → J
  | obj : List (String × J) → J

/-- First binding of a key in an object field list (Python dict access). -/
def jField : List (String × J) → String → Option J
  | [], _ => none
  | (k, v) :: rest, key => if k = key then some v else jField rest key

/-- Field access on an object value. -/
def J.get (j : J) (key : String) : Option J :=
  match j with
  | .obj fs => jField fs key
  | _ => none

/-- Path access through nested objects. -/
def J.getPath : J → List String → Option J
  | j, [] => some j
  | j, k :: ks =>
    match j.get k with
    | some v => v.getPath ks
    | none => none

/-- The recognized predicate keys of the legacy schema (`converter.py` only
ever tests these keys); a missing key is `none`. -/
structure Predicate where
  custom_model_data : Option Int := none
  pulling : Option Int := none
  pull : Option PyNum := none
  charged : Option Int := none
  firework : Option Int := none
  blocking : Option Int := none
  cast : Option Int := none
  damaged : Option Int := none
  damage : Option PyNum := none
deriving DecidableEq

/-- One entry of the `overrides` list. -/
structure Override where
  predicate : Predicate
  model : String
deriving DecidableEq

/-- A legacy source document: `textures.layer0`, `parent`, the opaque
`display` block and the ordered `overrides` list (`none` models a missing
`overrides` key, which `convert_json_format` distinguishes from an empty
list). -/
structure Doc where
  textures_layer0 : Option String := none
  parent : Option String := none
  display : Option J := none
  overrides : Option (List Override) := none

/-- `str.startswith` on character lists. -/
def strStarts : List Char → List Char → Bool
  | [], _ => true
  | _ :: _, [] => false
  | a :: as, b :: bs => a == b && strStarts as bs

/-- `os.path.splitext(...)[0]` for ordinary file names: cut at the last
dot, except when every character before it is a dot (Python keeps such
names whole). -/
def stemOf (s : String) : String :=
  match s.data.reverse.findIdx? (fun c => c == '.') with
  | none => s
  | some k =>
    let cut := s.data.length - 1 - k
    if (s.data.take cut).all (fun c => c == '.') then s else ⟨s.data.take cut⟩

/-- `is_fishing_rod_model` (converter.py lines 147-170). -/
def is_fishing_rod_model (json_data : Doc) (fileName : String) : Bool :=
  fileName == "fishing_rod.json" ||
    (json_data.parent == some "item/handheld_rod" && json_data.overrides.isSome &&
      (json_data.overrides.getD []).any (fun o => o.predicate.cast.isSome))

/-- `is_shield_model` (converter.py lines 217-240). -/
def is_shield_model (json_data : Doc) (fileName : String) : Bool :=
  fileName == "shield.json" ||
    (json_data.parent == some "builtin/entity" && json_data.overrides.isSome &&
      (json_data.overrides.getD []).any (fun o => o.predicate.blocking.isSome))

/-- `is_head_model` (converter.py lines 287-313): head kind and base path
for the seven head file names. -/
def is_head_model (fileName : String) : Option (String × String) :=
  if fileName == "player_head.json" then some ("player", "minecraft:item/template_skull")
  else if fileName == "piglin_head.json" then some ("piglin", "minecraft:item/template_skull")
  else if fileName == "zombie_head.json" then some ("zombie", "minecraft:item/template_skull")
  else if fileName == "creeper_head.json" then some ("creeper", "minecraft:item/template_skull")
  else if fileName == "dragon_head.json" then some ("dragon", "minecraft:item/dragon_head")
  else if fileName == "wither_skeleton_skull.json" then
    some ("wither_skeleton", "minecraft:item/template_skull")
  else if fileName == "skeleton_skull.json" then some ("skeleton", "minecraft:item/template_skull")
  else none

/-- `is_damage_model` (converter.py lines 315-334). -/
def is_damage_model (json_data : Doc) : Bool :=
  json_data.overrides.isSome &&
    (json_data.overrides.getD []).any (fun o =>
      o.predicate.damaged.isSome && o.predicate.damage.isSome &&
        o.predicate.custom_model_data.isNone)

/-- `is_potion_model` (converter.py lines 336-353). -/
def is_potion_model (fileName : String) : Bool :=
  fileName == "potion.json" || fileName == "splash_potion.json" ||
    fileName == "lingering_potion.json"

/-- `is_chest_model` (converter.py lines 355-373): chest type when the file
name matches. -/
def is_chest_model (fileName : String) : Option String :=
  if fileName == "chest.json" then some "chest"
  else if fileName == "trapped_chest.json" then some "trapped_chest"
  else none

/-- `has_mixed_custom_damage` (converter.py lines 375-397). -/
def has_mixed_custom_damage (json_data : Doc) : Bool :=
  json_data.overrides.isSome &&
    (json_data.overrides.getD []).any (fun o =>
      o.predicate.custom_model_data.isSome && o.predicate.damaged.isSome &&
        o.predicate.damage.isSome)

/-- Bow detection of `convert_json_format` (converter.py line 655). -/
def is_bow_check (fileName : String) : Bool :=
  fileName == "bow.json" || ((is_chest_model fileName).isNone && stemOf fileName == "bow")

/-- Crossbow detection of `convert_json_format` (converter.py line 656). -/
def is_crossbow_check (fileName : String) : Bool :=
  fileName == "crossbow.json" ||
    ((is_chest_model fileName).isNone && stemOf fileName == "crossbow")

/-- The legacy-alias rewrite of the path normalizer (converter.py lines
673-677): the two `crossbow_standby` spellings handled by the source. -/
def aliasChars (p : List Char) : List Char :=
  if p = "item/crossbow_standby".data then "item/crossbow".data
  else if p = "minecraft:item/crossbow_standby".data then "minecraft:item/crossbow".data
  else p

/-- The namespace-rooting rules of the path normalizer (converter.py lines
680-686). -/
def rootRules (p : List Char) : List Char :=
  if strStarts "minecraft:item/".data p then p
  else if strStarts "item/".data p then "minecraft:".data ++ p
  else if !strStarts "minecraft:".data p then "minecraft:item/".data ++ p
  else p

/-- Full texture-path normalization (converter.py lines 671-686): alias
rewrite followed by namespace rooting. -/
def normChars (p : List Char) : List Char := rootRules (aliasChars p)

/-- String-level path normalization, the `normalize` contract of the spec. -/
def normalize (p : String) : String := ⟨normChars p.data⟩

/-- Stable insertion used to model Python `sorted(...)`: the new element
goes after every existing element that compares less-or-equal, preserving
input order among equal keys. -/
def pyInsert (le : α → α → Bool) (a : α) : List α → List α
  | [] => [a]
  | b :: bs => if le b a then b :: pyInsert le a bs else a :: b :: bs

/-- Python `sorted(xs, key=...)`: stable ascending sort by repeated stable
insertion in input order. -/
def pySorted (le : α → α → Bool) (xs : List α) : List α :=
  xs.foldl (fun acc a => pyInsert le a acc) []

/-- Ascending comparison of pull states (`key=lambda x: x.get("pull", 0)`;
the pull value is always materialized at grouping time). -/
structure PullState where
  pull : PyNum
  model : String
deriving DecidableEq

/-- One damage state of a group (`float(predicate["damage"])`, model). -/
structure DamageState where
  damage : PyNum
  model : String
deriving DecidableEq

/-- The per-CMD group shape of the bow branch (converter.py lines
1006-1010). -/
structure BowGroup where
  base : Option String := none
  pulling_states : List PullState := []
deriving DecidableEq

/-- The per-CMD group shape of the crossbow branch (converter.py lines
910-916). -/
structure CrossbowGroup where
  base : Option String := none
  pulling_states : List PullState := []
  arrow : Option String := none
  firework : Option String := none
deriving DecidableEq

/-- The per-CMD group shape of `convert_mixed_custom_damage_model`
(converter.py lines 506-510). -/
structure MixedGroup where
  base_model : Option String := none
  damage_states : List DamageState := []
deriving DecidableEq

/-- Update-or-append on the association list standing in for the Python
`cmd_groups` dict: the first binding of the key is updated in place,
otherwise a fresh group is appended (dict insertion order). -/
def insGroup (c : Int) (upd : G → G) (init : G) : List (Int × G) → List (Int × G)
  | [] => [(c, upd init)]
  | (k, g) :: rest =>
    if k = c then (k, upd g) :: rest else (k, g) :: insGroup c upd init rest

/-- The shared `cmd_groups` construction of the converter: overrides
without a `custom_model_data` key are skipped, all others are routed into
the group of their CMD value. -/
def group_overrides (route : Override → G → G) (init : G) :
    List Override → List (Int × G) → List (Int × G)
  | [], acc => acc
  | o :: os, acc =>
    match o.predicate.custom_model_data with
    | none => group_overrides route init os acc
    | some c => group_overrides route init os (insGroup c (route o) init acc)

/-- Routing of one bow override into its group (converter.py lines
1012-1019): a `pulling` override appends a pull state, anything else
overwrites the base model. -/
def bow_route (o : Override) (g : BowGroup) : BowGroup :=
  if o.predicate.pulling.isSome then
    { g with pulling_states := g.pulling_states ++ [⟨o.predicate.pull.getD 0, o.model⟩] }
  else { g with base := some o.model }

/-- `cmd_groups` of the bow branch (converter.py lines 995-1019). -/
def bow_cmd_groups (ovs : List Override) : List (Int × BowGroup) :=
  group_overrides bow_route {} ovs []

/-- Routing of one crossbow override into its group (converter.py lines
918-930). -/
def crossbow_route (o : Override) (g : CrossbowGroup) : CrossbowGroup :=
  if o.predicate.pulling.isSome then
    { g with pulling_states := g.pulling_states ++ [⟨o.predicate.pull.getD 0, o.model⟩] }
  else if o.predicate.charged.isSome then
    if o.predicate.firework.getD 0 != 0 then { g with firework := some o.model }
    else { g with arrow := some o.model }
  else { g with base := some o.model }

/-- `cmd_groups` of the crossbow branch (converter.py lines 899-930). -/
def crossbow_cmd_groups (ovs : List Override) : List (Int × CrossbowGroup) :=
  group_overrides crossbow_route {} ovs []

/-- Routing of one override in `convert_mixed_custom_damage_model`
(converter.py lines 512-519). -/
def mixed_route (o : Override) (g : MixedGroup) : MixedGroup :=
  if o.predicate.damaged.isSome && o.predicate.damage.isSome then
    { g with damage_states := g.damage_states ++ [⟨o.predicate.damage.getD 0, o.model⟩] }
  else { g with base_model := some o.model }

/-- Grouping of shield / fishing-rod overrides in the final branch of
`convert_json_format` (converter.py lines 1105-1112): the raw overrides of
each CMD value, in input order. -/
def push_route (o : Override) (g : List Override) : List Override := g ++ [o]

/-- A `minecraft:model` leaf node. -/
def mc_model (m : String) : J :=
  J.obj [("type", J.s "minecraft:model"), ("model", J.s m)]

/-- An unprefixed `model` leaf node (the converter emits both spellings). -/
def plain_model (m : String) : J :=
  J.obj [("type", J.s "model"), ("model", J.s m)]

/-- The optional trailing `display` binding copied verbatim onto an output
document (converter.py lines 429-431, 553-555, 889-891). -/
def displayTail (json_data : Doc) : List (String × J) :=
  match json_data.display with
  | some d => [("display", d)]
  | none => []

/-- Pull states sorted ascending (`sorted(..., key=lambda x: x.get("pull", 0))`). -/
def sortPulling (states : List PullState) : List PullState :=
  pySorted (fun a b => PyNum.le a.pull b.pull) states

/-- One pulling-state entry of a bow/crossbow `range_dispatch`. -/
def pull_entry (st : PullState) : J :=
  J.obj [("threshold", J.q st.pull), ("model", mc_model st.model)]

/-- The per-CMD bow entry of the in-place conversion (converter.py lines
1021-1058).  The Python conditional expression
`group["base"] or pulling_states[0]["model"] if pulling_states else
base_path` binds as `(base or first_state) if pulling_states else
base_path`: with pulling states present the base model is the group base
or else the lowest-pull state model; with none it is the document base
path even when a group base exists.  The inner `range_dispatch` uses this
base model as fallback, and only pulling states whose model differs from
it become entries. -/
def bow_entry (base_path : String) (cmd : Int) (g : BowGroup) : J :=
  let pulling_states := sortPulling g.pulling_states
  let base_model :=
    match pulling_states with
    | st :: _ =>
      match g.base with
      | some b => b
      | none => st.model
    | [] => base_path
  J.obj [("threshold", J.i cmd),
    ("model", J.obj [
      ("type", J.s "minecraft:condition"),
      ("property", J.s "minecraft:using_item"),
      ("on_false", mc_model base_model),
      ("on_true", J.obj [
        ("type", J.s "minecraft:range_dispatch"),
        ("property", J.s "minecraft:use_duration"),
        ("scale", J.q 0.05),
        ("fallback", mc_model base_model),
        ("entries", J.arr
          ((pulling_states.filter (fun st => st.model != base_model)).map pull_entry))])])]

/-- One charge-type case of the crossbow `select` node. -/
def charge_case (m w : String) : J :=
  J.obj [("model", mc_model m), ("when", J.s w)]

/-- The per-CMD crossbow entry of the in-place conversion (converter.py
lines 932-991); the base model is computed by the same low-precedence
conditional as in the bow branch (line 934). -/
def crossbow_entry (base_path : String) (cmd : Int) (g : CrossbowGroup) : J :=
  let pulling_states := sortPulling g.pulling_states
  let base_model :=
    match pulling_states with
    | st :: _ =>
      match g.base with
      | some b => b
      | none => st.model
    | [] => base_path
  J.obj [("threshold", J.i cmd),
    ("model", J.obj [
      ("type", J.s "minecraft:condition"),
      ("property", J.s "minecraft:using_item"),
      ("on_false", J.obj [
        ("type", J.s "minecraft:select"),
        ("property", J.s "minecraft:charge_type"),
        ("fallback", mc_model base_model),
        ("cases", J.arr (
          (match g.arrow with
           | some a => [charge_case a "arrow"]
           | none => []) ++
          (match g.firework with
           | some f => [charge_case f "rocket"]
           | none => [])))]),
      ("on_true", J.obj [
        ("type", J.s "minecraft:range_dispatch"),
        ("property", J.s "minecraft:crossbow/pull"),
        ("fallback", mc_model
          (match pulling_states with
           | st :: _ => st.model
           | [] => base_model)),
        ("entries", J.arr ((pulling_states.drop 1).map pull_entry))])])]

/-- The last-wins scan for a shield CMD value (`get_shield_model`,
converter.py lines 242-285): first component the normal model (overrides
with this CMD and no `blocking` key), second the blocking override
(`blocking == 1`). -/
def shield_scan (cmd_value : Int) (ovs : List Override) : Option String × Option String :=
  ovs.foldl (fun st o =>
    if o.predicate.custom_model_data == some cmd_value then
      if o.predicate.blocking.getD 0 == 1 then (st.1, some o.model)
      else if o.predicate.blocking.isNone then (some o.model, st.2)
      else st
    else st) (none, none)

/-- `get_shield_model` (converter.py lines 242-285); the `base_model` and
`blocking_model` arguments are accepted and ignored exactly as in the
source, which rescans `json_data`. -/
def get_shield_model (cmd_value : Int) (base_model blocking_model : String)
    (json_data : Doc) : Option J :=
  let scan := shield_scan cmd_value (json_data.overrides.getD [])
  match scan.1 with
  | none => none
  | some normal_model =>
    some (J.obj [
      ("type", J.s "minecraft:condition"),
      ("property", J.s "minecraft:using_item"),
      ("on_false", mc_model normal_model),
      ("on_true", mc_model (scan.2.getD normal_model))])

/-- The document-level blocking model scan of the shield fallback
(converter.py lines 691-704): first matching override, defaulted and then
namespaced. -/
def shield_blocking_model (json_data : Doc) : String :=
  let found := (json_data.overrides.getD []).find? (fun o =>
    o.predicate.blocking.isSome && o.predicate.blocking == some 1 &&
      o.predicate.custom_model_data.isNone)
  let bm := (found.map (fun o => o.model)).getD "minecraft:item/shield_blocking"
  if strStarts "minecraft:".data bm.data then bm else "minecraft:" ++ bm

/-- The fixed document-level shield fallback (converter.py lines 708-725). -/
def shield_fallback : J :=
  J.obj [
    ("type", J.s "minecraft:condition"),
    ("property", J.s "minecraft:using_item"),
    ("on_false", J.obj [
      ("type", J.s "minecraft:special"),
      ("base", J.s "minecraft:item/shield"),
      ("model", J.obj [("type", J.s "minecraft:shield")])]),
    ("on_true", J.obj [
      ("type", J.s "minecraft:special"),
      ("base", J.s "minecraft:item/shield_blocking"),
      ("model", J.obj [("type", J.s "minecraft:shield")])])]

/-- The head fallback (converter.py lines 726-734). -/
def head_fallback (base_path kind : String) : J :=
  J.obj [
    ("type", J.s "minecraft:special"),
    ("base", J.s base_path),
    ("model", J.obj [("type", J.s "minecraft:head"), ("kind", J.s kind)])]

/-- The chest fallback (converter.py lines 735-743). -/
def chest_fallback (base_path : String) : J :=
  J.obj [
    ("type", J.s "minecraft:special"),
    ("base", J.s base_path),
    ("model", J.obj [("type", J.s "minecraft:chest"), ("texture", J.s "minecraft:normal")])]

/-- The fixed potion tint descriptor (converter.py lines 748-751 and
1553-1556). -/
def potion_tints : J :=
  J.arr [J.obj [("type", J.s "minecraft:potion"), ("default", J.i (-13083194))]]

/-- The potion fallback (converter.py lines 744-752). -/
def potion_fallback (base_path : String) : J :=
  J.obj [("type", J.s "model"), ("model", J.s base_path), ("tints", potion_tints)]

/-- The document-level cast/normal scan of the fishing-rod fallback
(converter.py lines 754-762): overrides without `custom_model_data`,
last wins; first component the normal model, second the cast model. -/
def fishing_doc_scan (json_data : Doc) : Option String × Option String :=
  (json_data.overrides.getD []).foldl (fun st o =>
    if o.predicate.custom_model_data.isNone then
      if o.predicate.cast.getD 0 == 1 then (st.1, some o.model) else (some o.model, st.2)
    else st) (none, none)

/-- The fishing-rod fallback (converter.py lines 753-785). -/
def fishing_rod_fallback (json_data : Doc) : J :=
  let scan := fishing_doc_scan json_data
  let base_model := scan.1.getD (json_data.textures_layer0.getD "minecraft:item/fishing_rod")
  let cast_model := scan.2.getD "minecraft:item/fishing_rod_cast"
  let base_model :=
    if strStarts "minecraft:".data base_model.data then base_model
    else "minecraft:" ++ base_model
  let cast_model :=
    if strStarts "minecraft:".data cast_model.data then cast_model
    else "minecraft:" ++ cast_model
  J.obj [
    ("type", J.s "minecraft:condition"),
    ("property", J.s "minecraft:fishing_rod/cast"),
    ("on_false", mc_model base_model),
    ("on_true", mc_model cast_model)]

/-- The fixed bow-file fallback (converter.py lines 786-819). -/
def bow_file_fallback : J :=
  J.obj [
    ("type", J.s "minecraft:condition"),
    ("property", J.s "minecraft:using_item"),
    ("on_false", mc_model "minecraft:item/bow"),
    ("on_true", J.obj [
      ("type", J.s "minecraft:range_dispatch"),
      ("property", J.s "minecraft:use_duration"),
      ("scale", J.q 0.05),
      ("fallback", mc_model "minecraft:item/bow_pulling_0"),
      ("entries", J.arr [
        J.obj [("threshold", J.q 0.65), ("model", mc_model "minecraft:item/bow_pulling_1")],
        J.obj [("threshold", J.q 0.9), ("model", mc_model "minecraft:item/bow_pulling_2")]])])]

/-- The fixed crossbow-file fallback (converter.py lines 820-872). -/
def crossbow_file_fallback : J :=
  J.obj [
    ("type", J.s "minecraft:condition"),
    ("property", J.s "minecraft:using_item"),
    ("on_false", J.obj [
      ("type", J.s "minecraft:select"),
      ("property", J.s "minecraft:charge_type"),
      ("fallback", mc_model "minecraft:item/crossbow"),
      ("cases", J.arr [
        charge_case "minecraft:item/crossbow_arrow" "arrow",
        charge_case "minecraft:item/crossbow_firework" "rocket"])]),
    ("on_true", J.obj [
      ("type", J.s "minecraft:range_dispatch"),
      ("property", J.s "minecraft:crossbow/pull"),
      ("fallback", mc_model "minecraft:item/crossbow_pulling_0"),
      ("entries", J.arr [
        J.obj [("threshold", J.q 0.58), ("model", mc_model "minecraft:item/crossbow_pulling_1")],
        J.obj [("threshold", J.q 1.0), ("model", mc_model "minecraft:item/crossbow_pulling_2")]])])]

/-- The `select(local_time)` chest node built for one override model path
(converter.py lines 1073-1102). -/
def chest_select (model_path : String) : J :=
  J.obj [
    ("type", J.s "minecraft:select"),
    ("property", J.s "minecraft:local_time"),
    ("pattern", J.s "MM-dd"),
    ("cases", J.arr [
      J.obj [
        ("model", J.obj [
          ("type", J.s "minecraft:special"),
          ("base", J.s model_path),
          ("model", J.obj [
            ("type", J.s "minecraft:chest"),
            ("texture", J.s "minecraft:christmas")])]),
        ("when", J.arr [J.s "12-24", J.s "12-25", J.s "12-26"])]]),
    ("fallback", J.obj [
      ("type", J.s "minecraft:special"),
      ("base", J.s model_path),
      ("model", J.obj [
        ("type", J.s "minecraft:chest"),
        ("texture", J.s "minecraft:normal")])])]

/-- One chest entry (converter.py lines 1070-1104). -/
def chest_entry (cmd : Int) (model_path : String) : J :=
  J.obj [("threshold", J.i cmd), ("model", chest_select model_path)]

/-- One plain entry (converter.py lines 1113-1121). -/
def plain_entry (cmd : Int) (model_path : String) : J :=
  J.obj [("threshold", J.i cmd), ("model", plain_model model_path)]

/-- The first pass of the final branch of `convert_json_format`
(converter.py lines 1064-1121): chest and plain overrides carrying a CMD
value become entries directly; shield and fishing-rod overrides are only
collected into `cmd_groups` (modelled separately by `group_overrides
push_route`). -/
def loop_entries (chest : Option String) (shield fishing : Bool) : List Override → List J
  | [] => []
  | o :: os =>
    match o.predicate.custom_model_data with
    | none => loop_entries chest shield fishing os
    | some cmd =>
      if chest.isSome then chest_entry cmd o.model :: loop_entries chest shield fishing os
      else if shield then loop_entries chest shield fishing os
      else if fishing then loop_entries chest shield fishing os
      else plain_entry cmd o.model :: loop_entries chest shield fishing os

/-- The shield second pass (converter.py lines 1124-1137): CMD keys in
ascending order, groups whose rescan finds no normal model are skipped. -/
def shield_pass (base_path blocking : String) (json_data : Doc)
    (groups : List (Int × List Override)) : List J :=
  (pySorted (fun a b => decide (a.1 ≤ b.1)) groups).filterMap (fun cg =>
    (get_shield_model cg.1 base_path blocking json_data).map (fun m =>
      J.obj [("threshold", J.i cg.1), ("model", m)]))

/-- The last-wins cast/normal scan for one fishing-rod CMD group
(converter.py lines 1141-1152); first component the normal model, second
the cast model. -/
def fishing_scan (cmd : Int) (ovs : List Override) : Option String × Option String :=
  ovs.foldl (fun st o =>
    if o.predicate.custom_model_data == some cmd then
      if o.predicate.cast.getD 0 == 1 then (st.1, some o.model) else (some o.model, st.2)
    else st) (none, none)

/-- The fishing-rod second pass (converter.py lines 1138-1170): CMD keys in
ascending order; an entry is emitted only when the scan finds both a normal
and a cast model. -/
def fishing_pass (groups : List (Int × List Override)) : List J :=
  (pySorted (fun a b => decide (a.1 ≤ b.1)) groups).filterMap (fun cg =>
    match fishing_scan cg.1 cg.2 with
    | (some normal_model, some cast_model) =>
      some (J.obj [("threshold", J.i cg.1),
        ("model", J.obj [
          ("type", J.s "minecraft:condition"),
          ("property", J.s "minecraft:fishing_rod/cast"),
          ("on_false", mc_model normal_model),
          ("on_true", mc_model cast_model)])])
    | _ => none)

/-- The raw base path of `convert_json_format` before namespace rooting
(converter.py lines 624-637): `textures.layer0 or parent`, replaced for
potion files by the fixed potion path chosen from `layer0`. -/
def base_path_pre (json_data : Doc) (fileName : String) : String :=
  let base_texture := json_data.textures_layer0.getD ""
  let parent_path := json_data.parent.getD ""
  let bp := if base_texture ≠ "" then base_texture else parent_path
  if is_potion_model fileName then
    if json_data.textures_layer0 == some "item/splash_potion_overlay" then
      "minecraft:item/splash_potion"
    else if json_data.textures_layer0 == some "item/lingering_potion_overlay" then
      "minecraft:item/lingering_potion"
    else "minecraft:item/potion"
  else bp

/-- The base path after the head/chest overrides and texture normalization
(converter.py lines 666-686): heads use the mapped skull path, chests use
`item/<type>`, and texture paths (no parent, non-potion) get the alias
rewrite plus namespace rooting; with a parent present only the alias
rewrite applies. -/
def base_path_main (json_data : Doc) (fileName : String) : String :=
  match is_head_model fileName with
  | some kb => kb.2
  | none =>
    match is_chest_model fileName with
    | some ct => "item/" ++ ct
    | none =>
      let base_texture := json_data.textures_layer0.getD ""
      if base_texture ≠ "" && !is_potion_model fileName then
        let p : String := ⟨aliasChars (base_path_pre json_data fileName).data⟩
        if json_data.parent.getD "" == "" then ⟨rootRules p.data⟩ else p
      else base_path_pre json_data fileName

/-- `convert_damage_model` (converter.py lines 399-462). -/
def convert_damage_model (json_data : Doc) (base_texture : String) : J :=
  let base_texture :=
    if base_texture ≠ "" then base_texture
    else
      let t := json_data.textures_layer0.getD ""
      if t ≠ "" then t else json_data.parent.getD ""
  let damage_overrides := (json_data.overrides.getD []).filter (fun o =>
    o.predicate.damaged.isSome && o.predicate.damage.isSome &&
      o.predicate.custom_model_data.isNone)
  let damage_overrides := pySorted (fun a b =>
    PyNum.le (a.predicate.damage.getD 0) (b.predicate.damage.getD 0)) damage_overrides
  let entries := damage_overrides.map (fun o =>
    let model_path := if o.model.data.contains ':' then o.model else "minecraft:" ++ o.model
    J.obj [("threshold", J.q (o.predicate.damage.getD 0)),
           ("model", plain_model model_path)])
  J.obj (("model", J.obj [
      ("type", J.s "range_dispatch"),
      ("property", J.s "damage"),
      ("fallback", plain_model base_texture),
      ("entries", J.arr entries)]) :: displayTail json_data)

/-- The namespaced base path of `convert_mixed_custom_damage_model`
(converter.py lines 475-482). -/
def mixed_base_path (json_data : Doc) : String :=
  let base_texture := json_data.textures_layer0.getD ""
  let parent_path := json_data.parent.getD ""
  let base_path := if base_texture ≠ "" then base_texture else parent_path
  if !base_path.data.contains ':' && strStarts "item/".data base_path.data then
    "minecraft:" ++ base_path
  else if !base_path.data.contains ':' then "minecraft:item/" ++ base_path
  else base_path

/-- The sorted CMD groups of `convert_mixed_custom_damage_model`
(converter.py lines 497-522). -/
def mixed_groups (json_data : Doc) : List (Int × MixedGroup) :=
  pySorted (fun a b => decide (a.1 ≤ b.1))
    (group_overrides mixed_route {} (json_data.overrides.getD []) [])

/-- One CMD entry of `convert_mixed_custom_damage_model` (converter.py
lines 522-551): a nested `range_dispatch(damage)`. -/
def mixed_entry (base_path : String) (cg : Int × MixedGroup) : J :=
  let base_model := cg.2.base_model.getD base_path
  let damage_states := pySorted (fun a b => PyNum.le a.damage b.damage) cg.2.damage_states
  J.obj [("threshold", J.i cg.1),
    ("model", J.obj [
      ("type", J.s "range_dispatch"),
      ("property", J.s "damage"),
      ("fallback", plain_model base_model),
      ("entries", J.arr (damage_states.map (fun st =>
        J.obj [("threshold", J.q st.damage), ("model", plain_model st.model)])))])]

/-- `convert_mixed_custom_damage_model` (converter.py lines 464-557). -/
def convert_mixed_custom_damage_model (json_data : Doc) : J :=
  J.obj (("model", J.obj [
      ("type", J.s "range_dispatch"),
      ("property", J.s "custom_model_data"),
      ("fallback", plain_model (mixed_base_path json_data)),
      ("entries", J.arr
        ((mixed_groups json_data).map (mixed_entry (mixed_base_path json_data))))]) ::
    displayTail json_data)

/-- The base path in force after the fallback chain (converter.py line
706): the shield branch reassigns `base_path` to `minecraft:item/shield`
before the entry branches run, so shield-sniffed documents feed that path
into the bow/crossbow entry builders and the shield second pass. -/
def entry_base_path (json_data : Doc) (fileName : String) : String :=
  if is_shield_model json_data fileName then "minecraft:item/shield"
  else base_path_main json_data fileName

/-- `convert_json_format` in Custom-Model-Data (in-place) mode
(converter.py lines 611-1172, with `is_item_model=False`): the mixed and
pure damage conversions take precedence over every file-name-driven
archetype; otherwise the fallback is chosen by the shield / head / chest /
potion / fishing-rod / bow / crossbow chain and the entries by the
crossbow / bow / final branch, a missing `overrides` key yielding the bare
document. -/
def convert_json_format (json_data : Doc) (fileName : String) : J :=
  if has_mixed_custom_damage json_data then convert_mixed_custom_damage_model json_data
  else if is_damage_model json_data then
    convert_damage_model json_data (base_path_pre json_data fileName)
  else
    let shield := is_shield_model json_data fileName
    let fishing := is_fishing_rod_model json_data fileName
    let chest := is_chest_model fileName
    let head := is_head_model fileName
    let potion := is_potion_model fileName
    let bow := is_bow_check fileName
    let crossbow := is_crossbow_check fileName
    let base_path := entry_base_path json_data fileName
    let fallback :=
      if shield then shield_fallback
      else
        match head with
        | some kb => head_fallback base_path kb.1
        | none =>
          match chest with
          | some _ => chest_fallback base_path
          | none =>
            if potion then potion_fallback base_path
            else if fishing then fishing_rod_fallback json_data
            else if bow then bow_file_fallback
            else if crossbow then crossbow_file_fallback
            else plain_model base_path
    let entries :=
      match json_data.overrides with
      | none => []
      | some ovs =>
        if crossbow then
          (crossbow_cmd_groups ovs).map (fun cg => crossbow_entry base_path cg.1 cg.2)
        else if bow then
          (bow_cmd_groups ovs).map (fun cg => bow_entry base_path cg.1 cg.2)
        else
          let groups :=
            if chest.isSome then []
            else if shield || fishing then group_overrides push_route [] ovs []
            else []
          loop_entries chest shield fishing ovs ++
            (if shield then
              shield_pass base_path (shield_blocking_model json_data) json_data groups
             else if fishing then fishing_pass groups
             else [])
    J.obj (("model", J.obj [
      ("type", J.s "range_dispatch"),
      ("property", J.s "custom_model_data"),
      ("fallback", fallback),
      ("entries", J.arr entries)]) :: displayTail json_data)

/-- The `entries` list of an output document. -/
def entriesList (j : J) : Option (List J) :=
  match j.getPath ["model", "entries"] with
  | some (.arr es) => some es
  | _ => none

/-- Integer threshold of one output entry. -/
def entryThreshold (e : J) : Option Int :=
  match e.get "threshold" with
  | some (.i n) => some n
  | _ => none

/-- The CMD values appearing in an output document: the integer thresholds
of its entries when the top-level dispatch property is
`custom_model_data`, nothing otherwise. -/
def cmdThresholds (j : J) : List Int :=
  match j.getPath ["model", "property"] with
  | some (.s p) =>
    if p = "custom_model_data" then
      match j.getPath ["model", "entries"] with
      | some (.arr es) => es.filterMap entryThreshold
      | _ => []
    else []
  | _ => []

/-- The CMD values present in the input overrides. -/
def inputCmds (json_data : Doc) : List Int :=
  (json_data.overrides.getD []).filterMap (fun o => o.predicate.custom_model_data)

theorem strStarts_iff : (p s : List Char) → (strStarts p s = true ↔ ∃ t, s = p ++ t)
  | [], s => by simp [strStarts]
  | _ :: _, [] => by simp [strStarts]
  | a :: as, b :: bs => by
    simp only [strStarts, Bool.and_eq_true, beq_iff_eq, strStarts_iff as bs, List.cons_append]
    constructor
    · rintro ⟨rfl, t, rfl⟩
      exact ⟨t, rfl⟩
    · rintro ⟨t, h⟩
      injection h with h1 h2
      subst h1
      exact ⟨rfl, t, h2⟩

theorem strStarts_self_append (p t : List Char) : strStarts p (p ++ t) = true :=
  (strStarts_iff p (p ++ t)).mpr ⟨t, rfl⟩

theorem strStarts_append_left (a b s : List Char) :
    strStarts (a ++ b) (a ++ s) = strStarts b s := by
  induction a with
  | nil => rfl
  | cons c cs ih => simp [strStarts, ih]

theorem aliasChars_ne_special (l : List Char) :
    aliasChars l ≠ "item/crossbow_standby".data ∧
      aliasChars l ≠ "minecraft:item/crossbow_standby".data := by
  unfold aliasChars
  split_ifs with h1 h2
  · exact ⟨by decide, by decide⟩
  · exact ⟨by decide, by decide⟩
  · exact ⟨h1, h2⟩

theorem aliasChars_id (l : List Char) (h1 : l ≠ "item/crossbow_standby".data)
    (h3 : l ≠ "minecraft:item/crossbow_standby".data) : aliasChars l = l := by
  unfold aliasChars
  rw [if_neg h1, if_neg h3]

theorem rootRules_mci (p : List Char) (h : strStarts "minecraft:item/".data p = true) :
    rootRules p = p := by
  simp [rootRules, h]

theorem rootRules_it (p : List Char) (h1 : strStarts "minecraft:item/".data p = false)
    (h2 : strStarts "item/".data p = true) :
    rootRules p = "minecraft:".data ++ p := by
  simp [rootRules, h1, h2]

theorem rootRules_root (p : List Char) (h1 : strStarts "minecraft:item/".data p = false)
    (h2 : strStarts "item/".data p = false)
    (h3 : strStarts "minecraft:".data p = false) :
    rootRules p = "minecraft:item/".data ++ p := by
  simp [rootRules, h1, h2, h3]

theorem rootRules_mc (p : List Char) (h1 : strStarts "minecraft:item/".data p = false)
    (h2 : strStarts "item/".data p = false)
    (h3 : strStarts "minecraft:".data p = true) :
    rootRules p = p := by
  simp [rootRules, h1, h2, h3]

/-- One application of the rooting rules lands in a region on which the
whole normalization acts as the identity, except at the bare alias input. -/
theorem rootRules_stable (r : List Char) (h1 : r ≠ "item/crossbow_standby".data)
    (h3 : r ≠ "minecraft:item/crossbow_standby".data)
    (hc : r ≠ "crossbow_standby".data) :
    rootRules (aliasChars (rootRules r)) = rootRules r := by
  cases hmci : strStarts "minecraft:item/".data r with
  | true =>
    rw [rootRules_mci r hmci, aliasChars_id r h1 h3, rootRules_mci r hmci]
  | false =>
    cases hit : strStarts "item/".data r with
    | true =>
      have hq1 : "minecraft:".data ++ r ≠ "item/crossbow_standby".data := by
        intro heq
        have hself := strStarts_self_append "minecraft:".data r
        rw [heq] at hself
        exact absurd hself (by decide)
      have hq3 : "minecraft:".data ++ r ≠ "minecraft:item/crossbow_standby".data := by
        intro heq
        rw [show "minecraft:item/crossbow_standby".data =
            "minecraft:".data ++ "item/crossbow_standby".data from by decide] at heq
        exact h1 (List.append_cancel_left heq)
      have hpre : strStarts "minecraft:item/".data ("minecraft:".data ++ r) = true := by
        rw [show "minecraft:item/".data = "minecraft:".data ++ "item/".data from by decide,
          strStarts_append_left]
        exact hit
      rw [rootRules_it r hmci hit, aliasChars_id _ hq1 hq3, rootRules_mci _ hpre]
    | false =>
      cases hmc : strStarts "minecraft:".data r with
      | false =>
        have hq1 : "minecraft:item/".data ++ r ≠ "item/crossbow_standby".data := by
          intro heq
          have hself := strStarts_self_append "minecraft:item/".data r
          rw [heq] at hself
          exact absurd hself (by decide)
        have hq3 : "minecraft:item/".data ++ r ≠ "minecraft:item/crossbow_standby".data := by
          intro heq
          rw [show "minecraft:item/crossbow_standby".data =
              "minecraft:item/".data ++ "crossbow_standby".data from by decide] at heq
          exact hc (List.append_cancel_left heq)
        rw [rootRules_root r hmci hit hmc, aliasChars_id _ hq1 hq3,
          rootRules_mci _ (strStarts_self_append "minecraft:item/".data r)]
      | true =>
        rw [rootRules_mc r hmci hit hmc, aliasChars_id r h1 h3, rootRules_mc r hmci hit hmc]

theorem normChars_idem (l : List Char) (h : l ≠ "crossbow_standby".data) :
    normChars (normChars l) = normChars l := by
  obtain ⟨hs1, hs3⟩ := aliasChars_ne_special l
  have hcs : aliasChars l ≠ "crossbow_standby".data := by
    unfold aliasChars
    split_ifs with h1 h2
    · decide
    · decide
    · exact h
  exact rootRules_stable (aliasChars l) hs1 hs3 hcs

/-- C5 (counterexample): at the bare path `"crossbow_standby"` the
normalization is not idempotent — the first pass produces
`"minecraft:item/crossbow_standby"`, which the legacy-alias rewrite then
maps to `"minecraft:item/crossbow"` on the second pass. -/
theorem C5_counterexample :
    normalize "crossbow_standby" = "minecraft:item/crossbow_standby" ∧
      normalize (normalize "crossbow_standby") = "minecraft:item/crossbow" ∧
      normalize (normalize "crossbow_standby") ≠ normalize "crossbow_standby" := by
  refine ⟨rfl, rfl, ?_⟩
  decide

/-- C5 (amended): path normalization is idempotent on every path string
other than the bare `"crossbow_standby"`, the one input whose first
normalization pass manufactures a fresh redex for the legacy-alias
rewrite. -/
theorem C5_normalize_idem_off_alias (p : String) (h : p ≠ "crossbow_standby") :
    normalize (normalize p) = normalize p := by
  have hd : p.data ≠ "crossbow_standby".data := by
    intro hh
    exact h (congrArg String.mk hh)
  exact congrArg String.mk (normChars_idem p.data hd)

/-- Witness for C5: idempotence instantiated at the path `"item/bow"`. -/
theorem C5_witness : normalize (normalize "item/bow") = normalize "item/bow" :=
  C5_normalize_idem_off_alias "item/bow" (by decide)

theorem mem_pyInsert (le : α → α → Bool) (a x : α) (l : List α) :
    x ∈ pyInsert le a l ↔ x = a ∨ x ∈ l := by
  induction l with
  | nil => simp [pyInsert]
  | cons b bs ih =>
    simp only [pyInsert]
    split_ifs with h
    · simp only [List.mem_cons, ih]
      tauto
    · simp only [List.mem_cons]

theorem mem_pySorted_fold (le : α → α → Bool) (x : α) (xs : List α) :
    ∀ acc : List α,
      (x ∈ xs.foldl (fun acc a => pyInsert le a acc) acc ↔ x ∈ xs ∨ x ∈ acc) := by
  induction xs with
  | nil => intro acc; simp
  | cons a as ih =>
    intro acc
    simp only [List.foldl_cons, ih, mem_pyInsert, List.mem_cons]
    tauto

theorem mem_pySorted (le : α → α → Bool) (x : α) (xs : List α) :
    x ∈ pySorted le xs ↔ x ∈ xs := by
  unfold pySorted
  rw [mem_pySorted_fold]
  simp

theorem lookup_insGroup_self (c : Int) (upd : G → G) (init : G) (l : List (Int × G)) :
    List.lookup c (insGroup c upd init l) = some (upd ((List.lookup c l).getD init)) := by
  induction l with
  | nil => simp [insGroup, List.lookup]
  | cons kg rest ih =>
    obtain ⟨k, g⟩ := kg
    by_cases h : k = c
    · subst h
      simp [insGroup, List.lookup]
    · have hbeq : (c == k) = false := by simp [Ne.symm h]
      simp [insGroup, h, List.lookup, hbeq, ih]

theorem lookup_insGroup_ne (c k : Int) (h : k ≠ c) (upd : G → G) (init : G)
    (l : List (Int × G)) :
    List.lookup k (insGroup c upd init l) = List.lookup k l := by
  induction l with
  | nil => simp [insGroup, List.lookup, show (k == c) = false from by simp [h]]
  | cons kg rest ih =>
    obtain ⟨k2, g⟩ := kg
    by_cases h2 : k2 = c
    · subst h2
      simp [insGroup, List.lookup, show (k == k2) = false from by simp [h]]
    · simp [insGroup, h2, List.lookup, ih]

theorem keys_insGroup (c : Int) (upd : G → G) (init : G) (l : List (Int × G)) :
    (insGroup c upd init l).map Prod.fst ⊆ c :: l.map Prod.fst := by
  induction l with
  | nil => simp [insGroup]
  | cons kg rest ih =>
    obtain ⟨k, g⟩ := kg
    by_cases h : k = c
    · subst h
      simp [insGroup]
    · simp only [insGroup, if_neg h, List.map_cons]
      intro x hx
      rcases List.mem_cons.mp hx with rfl | hx2
      · simp
      · rcases List.mem_cons.mp (ih hx2) with rfl | h3
        · simp
        · simp [List.mem_cons, h3]

theorem keys_group_overrides (route : Override → G → G) (init : G) (ovs : List Override) :
    ∀ acc : List (Int × G),
      (group_overrides route init ovs acc).map Prod.fst ⊆
        acc.map Prod.fst ++ ovs.filterMap (fun o => o.predicate.custom_model_data) := by
  induction ovs with
  | nil => intro acc; simp [group_overrides]
  | cons o os ih =>
    intro acc
    simp only [group_overrides]
    cases hcmd : o.predicate.custom_model_data with
    | none =>
      intro x hx
      have := ih acc hx
      simp only [List.filterMap_cons, hcmd]
      exact this
    | some c =>
      intro x hx
      have hmem := ih (insGroup c (route o) init acc) hx
      simp only [List.filterMap_cons, hcmd]
      rcases List.mem_append.mp hmem with hl | hr
      · rcases List.mem_cons.mp (keys_insGroup c (route o) init acc hl) with rfl | h2
        · simp
        · exact List.mem_append.mpr (Or.inl h2)
      · simp only [List.mem_append, List.mem_cons]
        tauto

theorem bow_group_base_aux (ovs : List Override) :
    ∀ (acc : List (Int × BowGroup)) (c : Int),
      (List.lookup c (group_overrides bow_route {} ovs acc)).bind BowGroup.base =
        (match (ovs.filter (fun o => o.predicate.custom_model_data == some c &&
            o.predicate.pulling.isNone)).getLast? with
         | some o => some o.model
         | none => (List.lookup c acc).bind BowGroup.base) := by
  induction ovs with
  | nil =>
    intro acc c
    simp [group_overrides]
  | cons o os ih =>
    intro acc c
    simp only [group_overrides]
    cases hcmd : o.predicate.custom_model_data with
    | none =>
      rw [ih]
      have hq : (o.predicate.custom_model_data == some c &&
          o.predicate.pulling.isNone) = false := by simp [hcmd]
      rw [List.filter_cons_of_neg (by simp [hq])]
    | some c2 =>
      rw [ih]
      by_cases hc : c2 = c
      · subst hc
        cases hpull : o.predicate.pulling with
        | some v =>
          have hq : (o.predicate.custom_model_data == some c2 &&
              o.predicate.pulling.isNone) = false := by simp [hpull]
          rw [List.filter_cons_of_neg (by simp [hq])]
          cases hlast : (os.filter (fun o => o.predicate.custom_model_data == some c2 &&
              o.predicate.pulling.isNone)).getLast? with
          | some m => rfl
          | none =>
            simp only
            rw [lookup_insGroup_self]
            cases hacc : List.lookup c2 acc with
            | none => simp [bow_route, hpull]
            | some g => simp [bow_route, hpull]
        | none =>
          have hq : (o.predicate.custom_model_data == some c2 &&
              o.predicate.pulling.isNone) = true := by simp [hcmd, hpull]
          rw [List.filter_cons_of_pos (by simp [hq])]
          rw [List.getLast?_cons]
          cases hlast : (os.filter (fun o => o.predicate.custom_model_data == some c2 &&
              o.predicate.pulling.isNone)).getLast? with
          | some m => simp [List.getLastD_eq_getLast?, hlast]
          | none =>
            simp only [List.getLastD_eq_getLast?, hlast, Option.getD_none]
            rw [lookup_insGroup_self]
            simp [bow_route, hpull]
      · have hq : (o.predicate.custom_model_data == some c &&
            o.predicate.pulling.isNone) = false := by simp [hcmd, hc]
        rw [List.filter_cons_of_neg (by simp [hq])]
        cases hlast : (os.filter (fun o => o.predicate.custom_model_data == some c &&
            o.predicate.pulling.isNone)).getLast? with
        | some m => rfl
        | none =>
          simp only
          rw [lookup_insGroup_ne c2 c (Ne.symm hc)]

/-- C8: in the bow grouping of `convert_json_format`, the `base` model of
the group of a CMD value is exactly the model of the last override in
input order that carries this CMD value and qualifies as base (it has no
`pulling` state key, the only key the bow grouper routes away from base):
later base-qualifying entries overwrite earlier ones. -/
theorem C8_last_base_wins (ovs : List Override) (c : Int) :
    (List.lookup c (bow_cmd_groups ovs)).bind BowGroup.base =
      ((ovs.filter (fun o => o.predicate.custom_model_data == some c &&
          o.predicate.pulling.isNone)).getLast?).map Override.model := by
  rw [bow_cmd_groups, bow_group_base_aux]
  cases h : (ovs.filter (fun o => o.predicate.custom_model_data == some c &&
      o.predicate.pulling.isNone)).getLast? with
  | some o => simp
  | none => simp [List.lookup]

/-- C9: the damage-based classifications take precedence over every
file-name-driven archetype: a document with a mixed CMD+damage override is
converted by `convert_mixed_custom_damage_model` and, failing that, a
document with a damage-only override by `convert_damage_model`, whatever
the file name is (the file name enters the damage conversion only through
the raw base path argument). -/
theorem C9_damage_precedence (json_data : Doc) (fileName : String) :
    (has_mixed_custom_damage json_data = true →
      convert_json_format json_data fileName = convert_mixed_custom_damage_model json_data) ∧
      (has_mixed_custom_damage json_data = false → is_damage_model json_data = true →
        convert_json_format json_data fileName =
          convert_damage_model json_data (base_path_pre json_data fileName)) := by
  constructor
  · intro h
    simp [convert_json_format, h]
  · intro h1 h2
    simp [convert_json_format, h1, h2]

/-- Mixed CMD+damage input used to witness C9. -/
def c9_mixed_doc : Doc :=
  { textures_layer0 := some "item/pick",
    overrides := some [
      { predicate := { custom_model_data := some 7, damaged := some 1, damage := some 0.5 },
        model := "custom:p1" }] }

/-- Damage-only input used to witness C9. -/
def c9_damage_doc : Doc :=
  { textures_layer0 := some "item/pick",
    overrides := some [
      { predicate := { damaged := some 1, damage := some 0.5 }, model := "custom:p1" }] }

/-- Witness for C9: both damage rules fire at concrete inputs carrying a
special file name. -/
theorem C9_witness :
    convert_json_format c9_mixed_doc "bow.json" =
        convert_mixed_custom_damage_model c9_mixed_doc ∧
      convert_json_format c9_damage_doc "shield.json" =
        convert_damage_model c9_damage_doc (base_path_pre c9_damage_doc "shield.json") :=
  ⟨(C9_damage_precedence c9_mixed_doc "bow.json").1 rfl,
    (C9_damage_precedence c9_damage_doc "shield.json").2 rfl rfl⟩

/-- C10: for every document classified as shield (and not captured by the
damage rules), the document-level fallback of the in-place output is the
fixed `condition(using_item)` structure over the two special shield nodes
with bases `minecraft:item/shield` and `minecraft:item/shield_blocking` —
independent of the document textures and overrides, so a document-level
blocking override model never reaches the fallback. -/
theorem C10_shield_fallback_constant (json_data : Doc) (fileName : String)
    (hm : has_mixed_custom_damage json_data = false)
    (hd : is_damage_model json_data = false)
    (hs : is_shield_model json_data fileName = true) :
    (convert_json_format json_data fileName).getPath ["model", "fallback"] =
      some (J.obj [
        ("type", J.s "minecraft:condition"),
        ("property", J.s "minecraft:using_item"),
        ("on_false", J.obj [
          ("type", J.s "minecraft:special"),
          ("base", J.s "minecraft:item/shield"),
          ("model", J.obj [("type", J.s "minecraft:shield")])]),
        ("on_true", J.obj [
          ("type", J.s "minecraft:special"),
          ("base", J.s "minecraft:item/shield_blocking"),
          ("model", J.obj [("type", J.s "minecraft:shield")])])]) := by
  simp [convert_json_format, hm, hd, hs, J.getPath, J.get, jField, shield_fallback]

/-- Shield input with its own blocking override, used to witness C10. -/
def c10_doc : Doc :=
  { textures_layer0 := some "item/shield_frame",
    parent := some "builtin/entity",
    overrides := some [
      { predicate := { blocking := some 1 }, model := "custom:shield_block" },
      { predicate := { custom_model_data := some 3 }, model := "custom:s3" }] }

/-- Witness for C10: the constant shield fallback at a concrete document
whose own blocking override model is `custom:shield_block`. -/
theorem C10_witness :
    (convert_json_format c10_doc "shield.json").getPath ["model", "fallback"] =
      some (J.obj [
        ("type", J.s "minecraft:condition"),
        ("property", J.s "minecraft:using_item"),
        ("on_false", J.obj [
          ("type", J.s "minecraft:special"),
          ("base", J.s "minecraft:item/shield"),
          ("model", J.obj [("type", J.s "minecraft:shield")])]),
        ("on_true", J.obj [
          ("type", J.s "minecraft:special"),
          ("base", J.s "minecraft:item/shield_blocking"),
          ("model", J.obj [("type", J.s "minecraft:shield")])])]) :=
  C10_shield_fallback_constant c10_doc "shield.json" rfl rfl rfl

theorem potion_file_facts (fileName : String) (hp : is_potion_model fileName = true) :
    is_head_model fileName = none ∧ is_chest_model fileName = none := by
  simp only [is_potion_model, Bool.or_eq_true, beq_iff_eq] at hp
  rcases hp with (h | h) | h <;> subst h <;> exact ⟨by decide, by decide⟩

/-- C7 (amended): every potion-file document not captured by the damage
rules AND not also content-sniffed as a shield (parent `builtin/entity`
with a blocking override — the shield branch precedes the potion fallback,
converter.py line 689 before 744) gets a plain `model` fallback over the
potion base path carrying the fixed tint list
`[type minecraft:potion, default -13083194]`; the tint descriptor is one
constant shared by all three potion kinds. -/
theorem C7_potion_tints (json_data : Doc) (fileName : String)
    (hm : has_mixed_custom_damage json_data = false)
    (hd : is_damage_model json_data = false)
    (hp : is_potion_model fileName = true)
    (hs : is_shield_model json_data fileName = false) :
    (convert_json_format json_data fileName).getPath ["model", "fallback"] =
        some (potion_fallback (base_path_pre json_data fileName)) ∧
      (convert_json_format json_data fileName).getPath ["model", "fallback", "tints"] =
        some (J.arr [J.obj [("type", J.s "minecraft:potion"), ("default", J.i (-13083194))]]) := by
  obtain ⟨hhead, hchest⟩ := potion_file_facts fileName hp
  constructor
  · simp [convert_json_format, hm, hd, hs, hp, hhead, hchest, entry_base_path,
      base_path_main, J.getPath, J.get, jField]
  · simp [convert_json_format, hm, hd, hs, hp, hhead, hchest, entry_base_path,
      base_path_main, J.getPath, J.get, jField, potion_fallback, potion_tints]

/-- Splash potion input used to witness C7. -/
def c7_doc : Doc :=
  { textures_layer0 := some "item/splash_potion_overlay",
    overrides := some [
      { predicate := { custom_model_data := some 2 }, model := "custom:pot" }] }

/-- Witness for C7 at a concrete splash potion document. -/
theorem C7_witness :
    (convert_json_format c7_doc "splash_potion.json").getPath ["model", "fallback"] =
        some (potion_fallback (base_path_pre c7_doc "splash_potion.json")) ∧
      (convert_json_format c7_doc "splash_potion.json").getPath
          ["model", "fallback", "tints"] =
        some (J.arr [J.obj [("type", J.s "minecraft:potion"), ("default", J.i (-13083194))]]) :=
  C7_potion_tints c7_doc "splash_potion.json" rfl rfl rfl rfl

/-- Potion-file input that is also content-sniffed as a shield. -/
def c7x_doc : Doc :=
  { textures_layer0 := some "item/potion",
    parent := some "builtin/entity",
    overrides := some [
      { predicate := { blocking := some 1 }, model := "custom:pblock" },
      { predicate := { custom_model_data := some 2 }, model := "custom:pot2" }] }

/-- C7 (counterexample): a `potion.json` document with parent
`builtin/entity` and a blocking override — Potion-archetype by file name —
gets the shield `condition(using_item)` fallback, which carries NO tints
field, refuting the claim as stated. -/
theorem C7_counterexample :
    is_potion_model "potion.json" = true ∧
      is_shield_model c7x_doc "potion.json" = true ∧
      (convert_json_format c7x_doc "potion.json").getPath ["model", "fallback"] =
        some shield_fallback ∧
      (convert_json_format c7x_doc "potion.json").getPath ["model", "fallback", "tints"] =
        none :=
  ⟨rfl, rfl, rfl, rfl⟩

theorem chest_file_facts (fileName : String) (ct : String)
    (hc : is_chest_model fileName = some ct) :
    is_bow_check fileName = false ∧ is_crossbow_check fileName = false := by
  have hfn : fileName = "chest.json" ∨ fileName = "trapped_chest.json" := by
    by_cases h1 : fileName = "chest.json"
    · exact Or.inl h1
    · by_cases h2 : fileName = "trapped_chest.json"
      · exact Or.inr h2
      · exfalso
        simp [is_chest_model, h1, h2] at hc
  rcases hfn with h | h <;> subst h <;> exact ⟨by decide, by decide⟩

/-- The chest / select(local_time) entry exactly as the claim describes
it: one case mapping the three christmas dates to the special christmas
chest and a fallback special normal chest, both based on the model path of
the override itself. -/
def chest_entry_claim (cmd : Int) (model_path : String) : J :=
  J.obj [("threshold", J.i cmd),
    ("model", J.obj [
      ("type", J.s "minecraft:select"),
      ("property", J.s "minecraft:local_time"),
      ("pattern", J.s "MM-dd"),
      ("cases", J.arr [
        J.obj [
          ("model", J.obj [
            ("type", J.s "minecraft:special"),
            ("base", J.s model_path),
            ("model", J.obj [
              ("type", J.s "minecraft:chest"),
              ("texture", J.s "minecraft:christmas")])]),
          ("when", J.arr [J.s "12-24", J.s "12-25", J.s "12-26"])]]),
      ("fallback", J.obj [
        ("type", J.s "minecraft:special"),
        ("base", J.s model_path),
        ("model", J.obj [
          ("type", J.s "minecraft:chest"),
          ("texture", J.s "minecraft:normal")])])])]

theorem loop_entries_chest (ct : String) (shield fishing : Bool) (ovs : List Override) :
    loop_entries (some ct) shield fishing ovs =
      ovs.filterMap (fun o =>
        (o.predicate.custom_model_data).map (fun cmd => chest_entry cmd o.model)) := by
  induction ovs with
  | nil => rfl
  | cons o os ih =>
    cases hcmd : o.predicate.custom_model_data with
    | none => simp [loop_entries, hcmd, ih]
    | some cmd => simp [loop_entries, hcmd, ih]

/-- C6: for a chest-file document not captured by the damage rules, every
override carrying a CMD value produces, whatever the CMD value is, the
`select(local_time, "MM-dd")` entry with the christmas dates case and the
normal-texture fallback, both based on the model path of the override
itself; overrides without a CMD value produce nothing. -/
theorem C6_chest_entries (json_data : Doc) (fileName : String) (ct : String)
    (hm : has_mixed_custom_damage json_data = false)
    (hd : is_damage_model json_data = false)
    (hc : is_chest_model fileName = some ct) :
    entriesList (convert_json_format json_data fileName) =
      some ((json_data.overrides.getD []).filterMap (fun o =>
        (o.predicate.custom_model_data).map (fun cmd => chest_entry_claim cmd o.model))) := by
  obtain ⟨hb, hcb⟩ := chest_file_facts fileName ct hc
  have hclaim : ∀ cmd m, chest_entry cmd m = chest_entry_claim cmd m := fun _ _ => rfl
  cases hovr : json_data.overrides with
  | none =>
    simp [convert_json_format, hm, hd, hc, hovr, entriesList, J.getPath, J.get, jField]
  | some ovs =>
    simp only [convert_json_format, hm, hd, hc, hb, hcb, hovr, Bool.false_eq_true, if_false,
      Option.isSome_some, if_true, Option.getD_some]
    simp [entriesList, J.getPath, J.get, jField, loop_entries_chest, hclaim,
      shield_pass, fishing_pass, pySorted]

/-- Chest input used to witness C6, with two CMD overrides and one
CMD-less override. -/
def c6_doc : Doc :=
  { textures_layer0 := some "item/chest",
    overrides := some [
      { predicate := { custom_model_data := some 5 }, model := "custom:c5" },
      { predicate := {}, model := "custom:cplain" },
      { predicate := { custom_model_data := some 11 }, model := "custom:c11" }] }

/-- Witness for C6 at a concrete chest document. -/
theorem C6_witness :
    entriesList (convert_json_format c6_doc "chest.json") =
      some ((c6_doc.overrides.getD []).filterMap (fun o =>
        (o.predicate.custom_model_data).map (fun cmd => chest_entry_claim cmd o.model))) :=
  C6_chest_entries c6_doc "chest.json" "chest" rfl rfl rfl

/-- The bow entry as the amended claim describes it: when the group has
pulling states the base model is the group base, or else the lowest-pull
state model; when it has none the base model is the document base path
(even if a group base exists); `on_false` shows the base model; `on_true`
is the `range_dispatch(use_duration, scale 0.05)` whose fallback is again
the base model and whose entries are the pull-sorted pulling states other
than those whose model equals the base model, keyed by pull threshold. -/
def bow_entry_amended (base_path : String) (cmd : Int) (g : BowGroup) : J :=
  let sorted_states := sortPulling g.pulling_states
  let base_model :=
    match sorted_states with
    | st :: _ => g.base.getD st.model
    | [] => base_path
  J.obj [("threshold", J.i cmd),
    ("model", J.obj [
      ("type", J.s "minecraft:condition"),
      ("property", J.s "minecraft:using_item"),
      ("on_false", mc_model base_model),
      ("on_true", J.obj [
        ("type", J.s "minecraft:range_dispatch"),
        ("property", J.s "minecraft:use_duration"),
        ("scale", J.q 0.05),
        ("fallback", mc_model base_model),
        ("entries", J.arr
          ((sorted_states.filter (fun st => st.model != base_model)).map pull_entry))])])]

/-- C1 (amended): for every bow-file document not captured by the damage
rules, each CMD group becomes one entry as in `bow_entry_amended` over the
conversion's document base path (`entry_base_path`, which is
`minecraft:item/shield` when the document is also content-sniffed as a
shield): the inner `range_dispatch` fallback is the BASE model, not the
first pulling state, and entries keep every pulling state whose model
differs from the base model rather than skipping the first one. -/
theorem C1_bow_structure (json_data : Doc) (fileName : String)
    (hm : has_mixed_custom_damage json_data = false)
    (hd : is_damage_model json_data = false)
    (hcb : is_crossbow_check fileName = false)
    (hb : is_bow_check fileName = true) :
    entriesList (convert_json_format json_data fileName) =
      some ((bow_cmd_groups (json_data.overrides.getD [])).map (fun cg =>
        bow_entry_amended (entry_base_path json_data fileName) cg.1 cg.2)) := by
  have hentry : ∀ bp cmd g, bow_entry bp cmd g = bow_entry_amended bp cmd g := by
    intro bp cmd g
    simp only [bow_entry, bow_entry_amended]
    cases sortPulling g.pulling_states with
    | nil => rfl
    | cons st rest =>
      cases g.base with
      | some b => rfl
      | none => rfl
  cases hovr : json_data.overrides with
  | none =>
    simp [convert_json_format, hm, hd, hcb, hb, hovr, entriesList, J.getPath, J.get,
      jField, bow_cmd_groups, group_overrides]
  | some ovs =>
    simp [convert_json_format, hm, hd, hcb, hb, hovr, entriesList, J.getPath, J.get,
      jField, hentry]

/-- The round-trip bow input of the claim. -/
def c1_doc : Doc :=
  { textures_layer0 := some "item/bow",
    overrides := some [
      { predicate := { custom_model_data := some 1 }, model := "custom:bow_1" },
      { predicate := { custom_model_data := some 1, pulling := some 1, pull := some 0.65 },
        model := "custom:bow_1_pull1" }] }

/-- The single pulling-state entry the code actually emits for `c1_doc`. -/
def c1_pull_entry : J :=
  J.obj [("threshold", J.q 0.65), ("model", mc_model "custom:bow_1_pull1")]

/-- C1 (counterexample): on the round-trip input of the claim the single
entry has `on_true.entries = [the 0.65 pulling entry]` — not the empty
list — and its `on_true.fallback.model` is `custom:bow_1`, the base model,
not `custom:bow_1_pull1`. -/
theorem C1_counterexample :
    (convert_json_format c1_doc "bow.json").getPath ["model", "entries"] =
      some (J.arr [J.obj [("threshold", J.i 1),
        ("model", J.obj [
          ("type", J.s "minecraft:condition"),
          ("property", J.s "minecraft:using_item"),
          ("on_false", mc_model "custom:bow_1"),
          ("on_true", J.obj [
            ("type", J.s "minecraft:range_dispatch"),
            ("property", J.s "minecraft:use_duration"),
            ("scale", J.q 0.05),
            ("fallback", mc_model "custom:bow_1"),
            ("entries", J.arr [c1_pull_entry])])])]]) ∧
    J.arr [c1_pull_entry] ≠ J.arr [] ∧
    J.s "custom:bow_1" ≠ J.s "custom:bow_1_pull1" := by
  refine ⟨rfl, ?_, ?_⟩
  · intro h
    injection h with h2
    cases h2
  · intro h
    injection h with h2
    exact absurd h2 (by decide)

/-- Witness for C1 at the round-trip bow input. -/
theorem C1_witness :
    entriesList (convert_json_format c1_doc "bow.json") =
      some ((bow_cmd_groups (c1_doc.overrides.getD [])).map (fun cg =>
        bow_entry_amended (entry_base_path c1_doc "bow.json") cg.1 cg.2)) :=
  C1_bow_structure c1_doc "bow.json" rfl rfl rfl rfl

/-- The fishing-rod entry as the amended claim describes it: an entry is
emitted only when the last-wins scan of the group finds BOTH a normal
model and a cast model; `on_false` is the normal model and `on_true` the
cast model. -/
def fishing_entry_amended (cmd : Int) (ovs : List Override) : Option J :=
  match fishing_scan cmd ovs with
  | (some normal_model, some cast_model) =>
    some (J.obj [("threshold", J.i cmd),
      ("model", J.obj [
        ("type", J.s "minecraft:condition"),
        ("property", J.s "minecraft:fishing_rod/cast"),
        ("on_false", mc_model normal_model),
        ("on_true", mc_model cast_model)])])
  | _ => none

theorem loop_entries_skips (shield fishing : Bool) (h : shield = true ∨ fishing = true)
    (ovs : List Override) : loop_entries none shield fishing ovs = [] := by
  induction ovs with
  | nil => rfl
  | cons o os ih =>
    cases hcmd : o.predicate.custom_model_data with
    | none => simp [loop_entries, hcmd, ih]
    | some cmd =>
      rcases h with h | h <;> subst h <;> simp [loop_entries, hcmd, ih]

/-- C2 (amended): for every fishing-rod document not captured by the
damage rules (and not named or content-matched as another entry
archetype), the entries are settled in both remaining cases.  When the
document is NOT also content-sniffed as a shield, they are produced per
CMD group in ascending CMD order and a group is skipped exactly when its
last-wins scan lacks a normal model OR lacks a cast model; when emitted,
`on_false` is the normal model and `on_true` the cast model.  When the
document IS also content-sniffed as a shield (parent `builtin/entity`
with a blocking override), the shield second pass runs instead
(converter.py line 1124 precedes 1138) and the entries are its
`condition(using_item)` entries, not `fishing_rod/cast` ones. -/
theorem C2_fishing_entries (json_data : Doc) (fileName : String)
    (hm : has_mixed_custom_damage json_data = false)
    (hd : is_damage_model json_data = false)
    (hcb : is_crossbow_check fileName = false)
    (hb : is_bow_check fileName = false)
    (hc : is_chest_model fileName = none)
    (hf : is_fishing_rod_model json_data fileName = true) :
    (is_shield_model json_data fileName = false →
      entriesList (convert_json_format json_data fileName) =
        some ((pySorted (fun a b => decide (a.1 ≤ b.1))
            (group_overrides push_route [] (json_data.overrides.getD []) [])).filterMap
          (fun cg => fishing_entry_amended cg.1 cg.2))) ∧
      (is_shield_model json_data fileName = true →
        entriesList (convert_json_format json_data fileName) =
          some (shield_pass "minecraft:item/shield" (shield_blocking_model json_data)
            json_data
            (group_overrides push_route [] (json_data.overrides.getD []) []))) := by
  constructor
  · intro hs
    cases hovr : json_data.overrides with
    | none =>
      simp [convert_json_format, hm, hd, hcb, hb, hc, hs, hf, hovr, entriesList, J.getPath,
        J.get, jField, group_overrides, pySorted]
    | some ovs =>
      have hloop := loop_entries_skips false true (Or.inr rfl) ovs
      simp only [convert_json_format, hm, hd, hcb, hb, hc, hs, hf, hovr]
      simp [entriesList, J.getPath, J.get, jField, hloop, fishing_pass,
        fishing_entry_amended]
  · intro hs
    cases hovr : json_data.overrides with
    | none =>
      simp [convert_json_format, hm, hd, hcb, hb, hc, hs, hf, hovr, entriesList, J.getPath,
        J.get, jField, group_overrides, shield_pass, pySorted]
    | some ovs =>
      have hloop := loop_entries_skips true true (Or.inl rfl) ovs
      simp only [convert_json_format, hm, hd, hcb, hb, hc, hs, hf, hovr]
      simp [entriesList, J.getPath, J.get, jField, hloop, entry_base_path, hs]

/-- Fishing-rod input whose CMD group has a normal model but no cast
model. -/
def c2_doc : Doc :=
  { overrides := some [
      { predicate := { custom_model_data := some 1 }, model := "custom:rod_1" }] }

/-- C2 (counterexample): the group of CMD 1 has a normal model
(`custom:rod_1`) and no cast model, and the conversion emits NO entry for
it — refuting that only groups lacking a normal model are skipped. -/
theorem C2_counterexample :
    fishing_scan 1 (c2_doc.overrides.getD []) = (some "custom:rod_1", none) ∧
      entriesList (convert_json_format c2_doc "fishing_rod.json") = some [] :=
  ⟨rfl, rfl⟩

/-- Fishing-rod input used to witness C2, with complete and incomplete
groups. -/
def c2w_doc : Doc :=
  { overrides := some [
      { predicate := { custom_model_data := some 2 }, model := "custom:rod_2" },
      { predicate := { custom_model_data := some 2, cast := some 1 }, model := "custom:rod_2c" },
      { predicate := { custom_model_data := some 1 }, model := "custom:rod_1" }] }

/-- Fishing-rod input that is also content-sniffed as a shield, used to
witness the shield branch of C2. -/
def c2s_doc : Doc :=
  { parent := some "builtin/entity",
    overrides := some [
      { predicate := { blocking := some 1 }, model := "custom:block" },
      { predicate := { custom_model_data := some 1 }, model := "custom:rod_1" },
      { predicate := { custom_model_data := some 1, cast := some 1 },
        model := "custom:rod_1c" }] }

/-- Witness for C2: the fishing branch at a plain fishing-rod document and
the shield branch at a shield-sniffed one. -/
theorem C2_witness :
    (entriesList (convert_json_format c2w_doc "fishing_rod.json") =
      some ((pySorted (fun a b => decide (a.1 ≤ b.1))
          (group_overrides push_route [] (c2w_doc.overrides.getD []) [])).filterMap
        (fun cg => fishing_entry_amended cg.1 cg.2))) ∧
      (entriesList (convert_json_format c2s_doc "fishing_rod.json") =
        some (shield_pass "minecraft:item/shield" (shield_blocking_model c2s_doc)
          c2s_doc (group_overrides push_route [] (c2s_doc.overrides.getD []) []))) :=
  ⟨(C2_fishing_entries c2w_doc "fishing_rod.json" rfl rfl rfl rfl rfl rfl).1 rfl,
    (C2_fishing_entries c2s_doc "fishing_rod.json" rfl rfl rfl rfl rfl rfl).2 rfl⟩

/-- The crossbow entry as the amended claim describes it, for a group
whose base model is `b`: `on_false` is a `select(charge_type)` whose
fallback is `b` when the group has pulling states and the document base
path when it has none (even though a group base exists), containing an
arrow case exactly when the group has an arrow override and a rocket case
exactly when it has a firework override; `on_true` is a
`range_dispatch(crossbow/pull)` whose fallback is the first pull-sorted
pulling state's model (or the same fallback value when there is none) and
whose entries are the remaining pull-sorted pulling states. -/
def crossbow_entry_claim (base_path b : String) (cmd : Int) (g : CrossbowGroup) : J :=
  let sorted_states := sortPulling g.pulling_states
  let fb :=
    match sorted_states with
    | _ :: _ => b
    | [] => base_path
  J.obj [("threshold", J.i cmd),
    ("model", J.obj [
      ("type", J.s "minecraft:condition"),
      ("property", J.s "minecraft:using_item"),
      ("on_false", J.obj [
        ("type", J.s "minecraft:select"),
        ("property", J.s "minecraft:charge_type"),
        ("fallback", mc_model fb),
        ("cases", J.arr (
          (match g.arrow with
           | some a => [charge_case a "arrow"]
           | none => []) ++
          (match g.firework with
           | some f => [charge_case f "rocket"]
           | none => [])))]),
      ("on_true", J.obj [
        ("type", J.s "minecraft:range_dispatch"),
        ("property", J.s "minecraft:crossbow/pull"),
        ("fallback", mc_model ((sorted_states.head?.map PullState.model).getD fb)),
        ("entries", J.arr ((sorted_states.drop 1).map pull_entry))])])]

/-- C3 (amended): for every crossbow-file document not captured by the
damage rules, every CMD group with a base model `b` is emitted among the
entries, and its emitted entry is exactly `crossbow_entry_claim` over the
conversion's document base path (`entry_base_path`, which is
`minecraft:item/shield` when the document is also content-sniffed as a
shield): the select fallback is `b` only when the group has pulling
states, and the document base path otherwise. -/
theorem C3_crossbow_entry (json_data : Doc) (fileName : String) (c : Int)
    (g : CrossbowGroup) (b : String)
    (hm : has_mixed_custom_damage json_data = false)
    (hd : is_damage_model json_data = false)
    (hcb : is_crossbow_check fileName = true)
    (hg : (c, g) ∈ crossbow_cmd_groups (json_data.overrides.getD []))
    (hb : g.base = some b) :
    ∃ es, entriesList (convert_json_format json_data fileName) = some es ∧
      crossbow_entry (entry_base_path json_data fileName) c g ∈ es ∧
      crossbow_entry (entry_base_path json_data fileName) c g =
        crossbow_entry_claim (entry_base_path json_data fileName) b c g := by
  have hentry : crossbow_entry (entry_base_path json_data fileName) c g =
      crossbow_entry_claim (entry_base_path json_data fileName) b c g := by
    simp only [crossbow_entry, crossbow_entry_claim, hb]
    cases sortPulling g.pulling_states with
    | nil => rfl
    | cons st rest => rfl
  cases hovr : json_data.overrides with
  | none =>
    rw [hovr] at hg
    simp [crossbow_cmd_groups, group_overrides] at hg
  | some ovs =>
    refine ⟨(crossbow_cmd_groups ovs).map (fun cg =>
      crossbow_entry (entry_base_path json_data fileName) cg.1 cg.2), ?_, ?_, hentry⟩
    · simp [convert_json_format, hm, hd, hcb, hovr, entriesList, J.getPath, J.get, jField]
    · rw [hovr] at hg
      simp only [Option.getD_some] at hg
      exact List.mem_map_of_mem (fun cg => crossbow_entry
        (entry_base_path json_data fileName) cg.1 cg.2) hg

/-- Crossbow input whose CMD-4 group has a base model and no pulling
states. -/
def c3x_doc : Doc :=
  { textures_layer0 := some "item/crossbow_standby",
    overrides := some [
      { predicate := { custom_model_data := some 4 }, model := "custom:x4" }] }

/-- C3 (counterexample): a crossbow group with base model `custom:x4` and
no pulling states is emitted with select fallback
`minecraft:item/crossbow` — the document base path — not the group's base
model, refuting the claim as stated. -/
theorem C3_counterexample :
    crossbow_cmd_groups (c3x_doc.overrides.getD []) =
        [(4, { base := some "custom:x4", pulling_states := [],
               arrow := none, firework := none })] ∧
      (convert_json_format c3x_doc "crossbow.json").getPath ["model", "entries"] =
        some (J.arr [crossbow_entry "minecraft:item/crossbow" 4
          { base := some "custom:x4" }]) ∧
      (crossbow_entry "minecraft:item/crossbow" 4
          { base := some "custom:x4" }).getPath
          ["model", "on_false", "fallback", "model"] =
        some (J.s "minecraft:item/crossbow") ∧
      J.s "minecraft:item/crossbow" ≠ J.s "custom:x4" := by
  refine ⟨rfl, rfl, rfl, ?_⟩
  intro h
  injection h with h2
  exact absurd h2 (by decide)

/-- Crossbow input used to witness C3. -/
def c3_doc : Doc :=
  { textures_layer0 := some "item/crossbow_standby",
    overrides := some [
      { predicate := { custom_model_data := some 4 }, model := "custom:x4" },
      { predicate := { custom_model_data := some 4, pulling := some 1 }, model := "custom:x4p0" },
      { predicate := { custom_model_data := some 4, pulling := some 1, pull := some 0.58 },
        model := "custom:x4p1" },
      { predicate := { custom_model_data := some 4, charged := some 1 }, model := "custom:x4a" }] }

/-- The CMD-4 group of `c3_doc`. -/
def c3_group : CrossbowGroup :=
  { base := some "custom:x4",
    pulling_states := [⟨0, "custom:x4p0"⟩, ⟨0.58, "custom:x4p1"⟩],
    arrow := some "custom:x4a" }

/-- Witness for C3 at a concrete crossbow document with pulling states. -/
theorem C3_witness :
    ∃ es, entriesList (convert_json_format c3_doc "crossbow.json") = some es ∧
      crossbow_entry (entry_base_path c3_doc "crossbow.json") 4 c3_group ∈ es ∧
      crossbow_entry (entry_base_path c3_doc "crossbow.json") 4 c3_group =
        crossbow_entry_claim (entry_base_path c3_doc "crossbow.json") "custom:x4" 4 c3_group :=
  C3_crossbow_entry c3_doc "crossbow.json" 4 c3_group "custom:x4" rfl rfl rfl
    (by decide) rfl

theorem filterMap_threshold_map {β : Type} (f : β → J) (k : β → Int)
    (h : ∀ x, entryThreshold (f x) = some (k x)) (l : List β) :
    (l.map f).filterMap entryThreshold = l.map k := by
  induction l with
  | nil => rfl
  | cons x xs ih => simp [h, ih]

theorem keys_subset_inputCmds (route : Override → G → G) (init : G) (ovs : List Override) :
    (group_overrides route init ovs []).map Prod.fst ⊆
      ovs.filterMap (fun o => o.predicate.custom_model_data) := by
  simpa using keys_group_overrides route init ovs []

theorem keys_pySorted_subset (le : (Int × G) → (Int × G) → Bool) (l : List (Int × G)) :
    (pySorted le l).map Prod.fst ⊆ l.map Prod.fst := by
  intro x hx
  rw [List.mem_map] at hx
  obtain ⟨p, hp, rfl⟩ := hx
  exact List.mem_map_of_mem Prod.fst ((mem_pySorted le p l).mp hp)

theorem loop_entries_thresholds (chest : Option String) (shield fishing : Bool)
    (ovs : List Override) :
    (loop_entries chest shield fishing ovs).filterMap entryThreshold ⊆
      ovs.filterMap (fun o => o.predicate.custom_model_data) := by
  induction ovs with
  | nil => simp [loop_entries]
  | cons o os ih =>
    cases hcmd : o.predicate.custom_model_data with
    | none =>
      simp only [loop_entries, hcmd, List.filterMap_cons]
      exact ih
    | some cmd =>
      simp only [loop_entries, hcmd, List.filterMap_cons]
      intro x hx
      split_ifs at hx with h1 h2 h3
      · rw [List.filterMap_cons] at hx
        simp only [show entryThreshold (chest_entry cmd o.model) = some cmd from rfl] at hx
        rcases List.mem_cons.mp hx with rfl | hx2
        · exact List.mem_cons_self x _
        · exact List.mem_cons_of_mem _ (ih hx2)
      · exact List.mem_cons_of_mem _ (ih hx)
      · exact List.mem_cons_of_mem _ (ih hx)
      · rw [List.filterMap_cons] at hx
        simp only [show entryThreshold (plain_entry cmd o.model) = some cmd from rfl] at hx
        rcases List.mem_cons.mp hx with rfl | hx2
        · exact List.mem_cons_self x _
        · exact List.mem_cons_of_mem _ (ih hx2)

theorem pass_thresholds_subset (f : Int × List Override → Option J)
    (hf : ∀ cg e, f cg = some e → entryThreshold e = some cg.1)
    (le : (Int × List Override) → (Int × List Override) → Bool)
    (groups : List (Int × List Override)) :
    ((pySorted le groups).filterMap f).filterMap entryThreshold ⊆ groups.map Prod.fst := by
  intro x hx
  rw [List.mem_filterMap] at hx
  obtain ⟨e, he, hte⟩ := hx
  rw [List.mem_filterMap] at he
  obtain ⟨cg, hcg, hfe⟩ := he
  rw [hf cg e hfe] at hte
  injection hte with h
  subst h
  exact List.mem_map_of_mem Prod.fst ((mem_pySorted le cg groups).mp hcg)

theorem shield_pass_thresholds (base_path blocking : String) (json_data : Doc)
    (groups : List (Int × List Override)) :
    (shield_pass base_path blocking json_data groups).filterMap entryThreshold ⊆
      groups.map Prod.fst := by
  refine pass_thresholds_subset _ ?_ _ groups
  intro cg e h
  cases hgs : get_shield_model cg.1 base_path blocking json_data with
  | none => rw [hgs] at h; cases h
  | some m =>
    rw [hgs] at h
    injection h with h2
    rw [← h2]
    rfl

theorem fishing_pass_thresholds (groups : List (Int × List Override)) :
    (fishing_pass groups).filterMap entryThreshold ⊆ groups.map Prod.fst := by
  refine pass_thresholds_subset _ ?_ _ groups
  intro cg e h
  unfold fishing_entry_amended at h
  rcases hscan : fishing_scan cg.1 cg.2 with ⟨n, c⟩
  cases n with
  | none => rw [hscan] at h; cases h
  | some nm =>
    cases c with
    | none => rw [hscan] at h; cases h
    | some cm =>
      rw [hscan] at h
      injection h with h2
      rw [← h2]
      rfl

theorem cmdThresholds_build (t fallback : J) (es : List J) (tail : List (String × J)) :
    cmdThresholds (J.obj (("model", J.obj [
      ("type", t),
      ("property", J.s "custom_model_data"),
      ("fallback", fallback),
      ("entries", J.arr es)]) :: tail)) = es.filterMap entryThreshold := rfl

theorem map_entry_keys_subset {G : Type} (route : Override → G → G) (init : G)
    (f : Int × G → J) (h : ∀ cg, entryThreshold (f cg) = some cg.1)
    (ovs : List Override) :
    ((group_overrides route init ovs []).map f).filterMap entryThreshold ⊆
      ovs.filterMap (fun o => o.predicate.custom_model_data) := by
  rw [filterMap_threshold_map f (fun cg => cg.1) h]
  exact keys_subset_inputCmds route init ovs

theorem mixed_cmd_subset (json_data : Doc) :
    cmdThresholds (convert_mixed_custom_damage_model json_data) ⊆ inputCmds json_data := by
  rw [convert_mixed_custom_damage_model, cmdThresholds_build,
    filterMap_threshold_map (mixed_entry (mixed_base_path json_data))
      (fun cg => cg.1) (fun cg => rfl)]
  intro x hx
  have hx2 := keys_pySorted_subset _ _ hx
  rw [inputCmds]
  exact keys_subset_inputCmds mixed_route {} _ hx2

/-- C4 (amended): the set of CMD values appearing as thresholds of the
output custom_model_data dispatch is always a subset of the CMD values
present in the input overrides — for every document and file name, over
all conversion branches. -/
theorem C4_cmd_subset (json_data : Doc) (fileName : String) :
    cmdThresholds (convert_json_format json_data fileName) ⊆ inputCmds json_data := by
  cases hm : has_mixed_custom_damage json_data with
  | true =>
    have hconv : convert_json_format json_data fileName =
        convert_mixed_custom_damage_model json_data := by
      simp [convert_json_format, hm]
    rw [hconv]
    exact mixed_cmd_subset json_data
  | false =>
    cases hd : is_damage_model json_data with
    | true =>
      have hconv : convert_json_format json_data fileName =
          convert_damage_model json_data (base_path_pre json_data fileName) := by
        simp [convert_json_format, hm, hd]
      rw [hconv]
      intro x hx
      rw [show cmdThresholds
        (convert_damage_model json_data (base_path_pre json_data fileName)) = []
        from rfl] at hx
      cases hx
    | false =>
      simp only [convert_json_format, hm, hd, Bool.false_eq_true, if_false]
      cases hovr : json_data.overrides with
      | none =>
        intro x hx
        rw [cmdThresholds_build] at hx
        cases hx
      | some ovs =>
        rw [cmdThresholds_build]
        have hinput : inputCmds json_data =
            ovs.filterMap (fun o => o.predicate.custom_model_data) := by
          rw [inputCmds, hovr, Option.getD_some]
        rw [hinput]
        cases hcb : is_crossbow_check fileName with
        | true =>
          simp only [if_true]
          rw [crossbow_cmd_groups]
          refine map_entry_keys_subset crossbow_route {} _ ?_ ovs
          intro cg
          rfl
        | false =>
          simp only [Bool.false_eq_true, if_false]
          cases hb : is_bow_check fileName with
          | true =>
            simp only [if_true]
            rw [bow_cmd_groups]
            refine map_entry_keys_subset bow_route {} _ ?_ ovs
            intro cg
            rfl
          | false =>
            simp only [Bool.false_eq_true, if_false]
            rw [List.filterMap_append]
            refine List.append_subset.mpr ⟨loop_entries_thresholds _ _ _ ovs, ?_⟩
            have hgroups : ∀ G : List (Int × List Override),
                G = (if (is_chest_model fileName).isSome then []
                  else if is_shield_model json_data fileName ||
                      is_fishing_rod_model json_data fileName then
                    group_overrides push_route [] ovs []
                  else []) →
                G.map Prod.fst ⊆ ovs.filterMap (fun o => o.predicate.custom_model_data) := by
              intro G hG
              subst hG
              split_ifs with h1 h2
              · simp
              · exact keys_subset_inputCmds push_route [] ovs
              · simp
            cases hsh : is_shield_model json_data fileName with
            | true =>
              simp only [if_true]
              exact List.Subset.trans (shield_pass_thresholds _ _ _ _) (hgroups _ (by rw [hsh]))
            | false =>
              simp only [Bool.false_eq_true, if_false]
              cases hf : is_fishing_rod_model json_data fileName with
              | true =>
                simp only [if_true]
                exact List.Subset.trans (fishing_pass_thresholds _) (hgroups _ (by rw [hsh, hf]))
              | false =>
                simp only [Bool.false_eq_true, if_false]
                intro x hx
                cases hx

/-- Bow input whose only CMD-1 override is a pulling state, so the group
has no base model. -/
def c4_doc : Doc :=
  { textures_layer0 := some "item/bow",
    overrides := some [
      { predicate := { custom_model_data := some 1, pulling := some 1, pull := some 0.5 },
        model := "custom:bp" }] }

/-- C4 (counterexample): the CMD-1 bow group of `c4_doc` lacks a base
model, yet CMD 1 still appears among the output thresholds — refuting
that a CMD value is absent from the output iff its group lacked a base. -/
theorem C4_counterexample :
    (List.lookup 1 (bow_cmd_groups (c4_doc.overrides.getD []))).map BowGroup.base =
        some none ∧
      cmdThresholds (convert_json_format c4_doc "bow.json") = [1] ∧
      inputCmds c4_doc = [1] :=
  ⟨rfl, rfl, rfl⟩

/-- Plain input used to witness C4. -/
def c4w_doc : Doc :=
  { textures_layer0 := some "item/stick",
    overrides := some [
      { predicate := { custom_model_data := some 9 }, model := "custom:m" }] }

/-- Witness for C4: the subset theorem applied at a concrete document and
a concrete output threshold. -/
theorem C4_witness : (9 : Int) ∈ inputCmds c4w_doc :=
  C4_cmd_subset c4w_doc "stick.json"
    (show (9 : Int) ∈ cmdThresholds (convert_json_format c4w_doc "stick.json") by
      rw [show cmdThresholds (convert_json_format c4w_doc "stick.json") = [9] from rfl]
      exact List.mem_singleton_self 9)

theorem pyInsert_pairwise (le : α → α → Bool)
    (htot : ∀ a b, le a b = true ∨ le b a = true)
    (htrans : ∀ a b c, le a b = true → le b c = true → le a c = true)
    (a : α) (l : List α) (hl : l.Pairwise (fun x y => le x y = true)) :
    (pyInsert le a l).Pairwise (fun x y => le x y = true) := by
  induction l with
  | nil => simp [pyInsert]
  | cons b bs ih =>
    rw [List.pairwise_cons] at hl
    obtain ⟨hb, hbs⟩ := hl
    simp only [pyInsert]
    split_ifs with h
    · rw [List.pairwise_cons]
      refine ⟨?_, ih hbs⟩
      intro x hx
      rcases (mem_pyInsert le a x bs).mp hx with rfl | hx2
      · exact h
      · exact hb x hx2
    · have hab : le a b = true := by
        rcases htot a b with h2 | h2
        · exact h2
        · exact absurd h2 h
      rw [List.pairwise_cons]
      constructor
      · intro x hx
        rcases List.mem_cons.mp hx with rfl | hx2
        · exact hab
        · exact htrans a b x hab (hb x hx2)
      · exact List.Pairwise.cons hb hbs

/-- `pySorted` really is Python ascending `sorted` for a total transitive
comparison. -/
theorem pySorted_pairwise (le : α → α → Bool)
    (htot : ∀ a b, le a b = true ∨ le b a = true)
    (htrans : ∀ a b c, le a b = true → le b c = true → le a c = true)
    (xs : List α) :
    (pySorted le xs).Pairwise (fun x y => le x y = true) := by
  suffices h : ∀ acc : List α, acc.Pairwise (fun x y => le x y = true) →
      (xs.foldl (fun acc a => pyInsert le a acc) acc).Pairwise
        (fun x y => le x y = true) from h [] (by simp)
  induction xs with
  | nil => intro acc h; exact h
  | cons a as ih =>
    intro acc h
    exact ih _ (pyInsert_pairwise le htot htrans a acc h)

/-- The per-CMD second passes iterate the group keys in ascending order:
the key-sorted association list is sorted by key. -/
theorem pySorted_int_keys_sorted {G : Type} (l : List (Int × G)) :
    (pySorted (fun a b => decide (a.1 ≤ b.1)) l).Pairwise (fun a b => a.1 ≤ b.1) := by
  have h := pySorted_pairwise (fun a b : Int × G => decide (a.1 ≤ b.1))
    (fun a b => by
      rcases Int.le_total a.1 b.1 with h2 | h2
      · exact Or.inl (decide_eq_true h2)
      · exact Or.inr (decide_eq_true h2))
    (fun a b c hab hbc =>
      decide_eq_true (le_trans (of_decide_eq_true hab) (of_decide_eq_true hbc)))
    l
  exact h.imp (fun hxy => of_decide_eq_true hxy)

end Migrator
